import Mathlib

/-
Verification of the training-orchestration core of main_superpixels_gcn.py:
the epoch loop of train_val_pipeline, the checkpoint retention policy of
save_checkpoint, the plateau learning-rate scheduler, and the per-epoch
metric recording.  Floating-point scalars (losses, accuracies, learning
rates, wall-clock seconds) are modelled as rationals; none of the verified
properties depends on rounding.
-/

namespace PyTorchGCN

/-- Hyperparameters of a run, the fields of the params dict consumed by
train_val_pipeline: epochs, init_lr, lr_reduce_factor, lr_schedule_patience,
min_lr, max_time (hours). -/
structure Params where
  epochs : ℕ
  initLr : ℚ
  lrReduceFactor : ℚ
  lrSchedulePatience : ℕ
  minLr : ℚ
  maxTime : ℚ
deriving DecidableEq

/-- Per-epoch results of the external train/eval steps, plus the wall-clock
duration of the epoch: train_epoch yields (trainLoss, trainAcc),
evaluate_network on the validation loader yields (valLoss, valAcc) and on
the test loader yields (testLoss, testAcc). -/
structure EpochObs where
  trainLoss : ℚ
  trainAcc : ℚ
  valLoss : ℚ
  valAcc : ℚ
  testLoss : ℚ
  testAcc : ℚ
  duration : ℚ
deriving DecidableEq

/-- State of the plateau scheduler: best validation loss seen so far
(none standing for plus infinity, the initial value), the bad-epoch
counter, and the current learning rate. -/
structure SchedulerState where
  bestLoss : Option ℚ
  badEpochs : ℕ
  lr : ℚ
deriving DecidableEq

/-- Modelled from the spec: the reduce-on-plateau policy of section 4.2.
The implementation delegates to torch.optim.lr_scheduler.ReduceLROnPlateau,
which is external library code not in this repository, so the observation
step is taken from the spec's words: a strict improvement
(validationLoss < bestLoss) updates bestLoss and resets badEpochs to 0;
otherwise badEpochs is incremented and, once it exceeds the patience, the
learning rate is multiplied by the reduce factor and badEpochs resets. -/
def observe (factor : ℚ) (patience : ℕ) (s : SchedulerState) (valLoss : ℚ) :
    SchedulerState :=
  match s.bestLoss with
  | none => ⟨some valLoss, 0, s.lr⟩
  | some b =>
    if valLoss < b then ⟨some valLoss, 0, s.lr⟩
    else if s.badEpochs + 1 > patience then ⟨some b, 0, s.lr * factor⟩
    else ⟨some b, s.badEpochs + 1, s.lr⟩

/-- The checkpoint directory, modelled as the set of epoch indices whose
file epoch_i.pkl currently exists. -/
abbrev CheckpointSet := Finset ℕ

/-- The effect of save_checkpoint on the checkpoint directory: torch.save
writes epoch_e.pkl, then the glob loop removes every file whose parsed
epoch index i satisfies i < e - 1 (Python integer arithmetic, hence the
comparison over ℤ). -/
def save_checkpoint (fs : CheckpointSet) (epoch : ℕ) : CheckpointSet :=
  (insert epoch fs).filter (fun i => ¬((i : ℤ) < (epoch : ℤ) - 1))

/-- save_checkpoint when os.remove can fail.  The source wraps no
try/except around os.remove, so a failed deletion raises out of
save_checkpoint; failing names the files whose removal raises. -/
def save_checkpoint_exc (failing : Finset ℕ) (fs : CheckpointSet) (epoch : ℕ) :
    Except Unit CheckpointSet :=
  let files := insert epoch fs
  let toDelete := files.filter (fun i : ℕ => (i : ℤ) < (epoch : ℤ) - 1)
  if (toDelete ∩ failing).Nonempty then Except.error ()
  else Except.ok (files \ toDelete)

/-- One scalar written to the SummaryWriter: writer.add_scalar(name, value,
epoch). -/
structure Scalar where
  name : String
  epoch : ℕ
  value : ℚ
deriving DecidableEq

/-- The five add_scalar calls of one loop iteration, in source order
(lines 111-115); the learning rate is read from the optimizer after
scheduler.step, so it is the post-observation rate. -/
def logBlock (o : EpochObs) (epoch : ℕ) (lr : ℚ) : List Scalar :=
  [⟨"train/_loss", epoch, o.trainLoss⟩,
   ⟨"val/_loss", epoch, o.valLoss⟩,
   ⟨"train/_acc", epoch, o.trainAcc⟩,
   ⟨"val/_acc", epoch, o.valAcc⟩,
   ⟨"learning_rate", epoch, lr⟩]

/-- Loop-carried state of train_val_pipeline: scheduler state (optimizer
learning rate included), checkpoint directory contents, SummaryWriter log,
and elapsed wall-clock seconds since t0. -/
structure LoopState where
  sched : SchedulerState
  ckpts : CheckpointSet
  log : List Scalar
  elapsed : ℚ
deriving DecidableEq

/-- State on entry to the loop: scheduler fresh with lr = init_lr, empty
checkpoint directory (each run gets a fresh timestamped directory), empty
log, zero elapsed time. -/
def initState (p : Params) : LoopState :=
  ⟨⟨none, 0, p.initLr⟩, ∅, [], 0⟩

/-- The body of one loop iteration (source lines 95-120): run the external
steps, feed the validation loss to the scheduler, save a checkpoint for
this epoch, write the five scalars, accumulate the epoch's wall-clock
duration. -/
def epochStep (p : Params) (st : LoopState) (epoch : ℕ) (o : EpochObs) :
    LoopState :=
  let sched := observe p.lrReduceFactor p.lrSchedulePatience st.sched o.valLoss
  ⟨sched,
   save_checkpoint st.ckpts epoch,
   st.log ++ logBlock o epoch sched.lr,
   st.elapsed + o.duration⟩

/-- Why the loop ended. -/
inductive StopReason where
  | converged
  | timeout
  | maxEpochs
deriving DecidableEq

/-- The stopping checks at the bottom of the loop body (lines 123-128), in
source order: first the learning-rate floor, then the wall-clock budget. -/
def stopCheck (p : Params) (st : LoopState) : Option StopReason :=
  if st.sched.lr < p.minLr then some StopReason.converged
  else if st.elapsed > p.maxTime * 3600 then some StopReason.timeout
  else none

/-- Outcome of the loop: final state, number of completed epochs, and the
reason the loop ended. -/
structure RunResult where
  final : LoopState
  epochsRun : ℕ
  reason : StopReason
deriving DecidableEq

/-- The epoch loop: remaining iterations, current epoch index, current
state.  Exhausting the range is the max-epochs exit; otherwise the body
runs and the stop checks may break. -/
def loopAux (p : Params) (obs : ℕ → EpochObs) :
    ℕ → ℕ → LoopState → RunResult
  | 0, e, st => ⟨st, e, StopReason.maxEpochs⟩
  | rem + 1, e, st =>
    let st' := epochStep p st e (obs e)
    match stopCheck p st' with
    | some r => ⟨st', e + 1, r⟩
    | none => loopAux p obs rem (e + 1) st'

/-- train_val_pipeline, restricted to its orchestration core: run the epoch
loop from a fresh state over the configured number of epochs.  The two
evaluation passes after the loop, the console prints, and the four
write-only history lists (lines 106-109, never read) do not affect any
verified state and are omitted. -/
def train_val_pipeline (p : Params) (obs : ℕ → EpochObs) : RunResult :=
  loopAux p obs p.epochs 0 (initState p)

/-- The loop state after n completed epochs, ignoring the stop checks:
the straight-line iteration of the loop body. -/
def stateAfter (p : Params) (obs : ℕ → EpochObs) : ℕ → LoopState
  | 0 => initState p
  | n + 1 => epochStep p (stateAfter p obs n) n (obs n)

/-- The params dict built in main: epochs 1000, init_lr 0.001,
lr_reduce_factor 0.5, lr_schedule_patience 5, min_lr 1e-5, max_time 48. -/
def mainParams : Params :=
  ⟨1000, 1/1000, 1/2, 5, 1/100000, 48⟩

/-- Feeding a list of validation losses to the scheduler, one observation
per epoch. -/
def feed (factor : ℚ) (patience : ℕ) : SchedulerState → List ℚ → SchedulerState :=
  List.foldl (observe factor patience)

/-- The learning rate observed at epoch e: the optimizer rate after that
epoch's scheduler.step, which is the rate logged at line 115 and tested by
the stop check at line 123. -/
def lrAt (p : Params) (obs : ℕ → EpochObs) (e : ℕ) : ℚ :=
  (stateAfter p obs (e + 1)).sched.lr

/-- The scheduler's (badEpochs, lr) move under one non-improving
observation, for reasoning about runs whose validation signal never
improves. -/
def autoStep (factor : ℚ) (patience : ℕ) (s : ℕ × ℚ) : ℕ × ℚ :=
  if s.1 + 1 > patience then (0, s.2 * factor) else (s.1 + 1, s.2)

/-- Iterating autoStep n times. -/
def autoIter (factor : ℚ) (patience : ℕ) (init : ℕ × ℚ) : ℕ → ℕ × ℚ
  | 0 => init
  | n + 1 => autoStep factor patience (autoIter factor patience init n)

/-- A fixed epoch observation: all scalars 1, zero duration. -/
def obsUnit : EpochObs := ⟨1, 1, 1, 1, 1, 1, 0⟩

/-- A run whose validation loss is constant (so it never strictly
improves) and whose epochs take no wall-clock time. -/
def obsConst : ℕ → EpochObs := fun _ => obsUnit

/-- A run identical to obsConst except for the test metrics. -/
def obsTestDiff : ℕ → EpochObs := fun _ => ⟨1, 1, 1, 1, 2, 3, 0⟩

/-- Observations where every epoch takes one second of wall-clock time. -/
def obsDur : ℕ → EpochObs := fun _ => ⟨1, 1, 1, 1, 1, 1, 1⟩

/-- A configuration under which, after the first epoch, the learning rate
is already below the floor and the wall-clock budget is already spent:
one epoch, init_lr 1/2, min_lr 1, max_time 0. -/
def pBoth : Params := ⟨1, 1/2, 1/2, 5, 1, 0⟩

/-- A configuration with a zero wall-clock budget whose learning-rate
floor can never fire before the timeout. -/
def pTimeout : Params := ⟨5, 1/10, 1/2, 5, 1/1000, 0⟩

theorem save_checkpoint_zero (fs : CheckpointSet) :
    save_checkpoint fs 0 = insert 0 fs := by
  unfold save_checkpoint
  apply Finset.filter_true_of_mem
  intro i _
  omega

theorem ckpts_stateAfter_succ (p : Params) (obs : ℕ → EpochObs) (n : ℕ) :
    (stateAfter p obs (n + 1)).ckpts = save_checkpoint (stateAfter p obs n).ckpts n :=
  rfl

theorem ckpts_after (p : Params) (obs : ℕ → EpochObs) :
    ∀ n : ℕ, (stateAfter p obs (n + 1)).ckpts = if n = 0 then {0} else {n - 1, n} := by
  intro n
  induction n with
  | zero =>
    rw [ckpts_stateAfter_succ]
    show save_checkpoint (∅ : CheckpointSet) 0 = _
    rw [save_checkpoint_zero]
    simp
  | succ m ih =>
    rw [ckpts_stateAfter_succ, ih]
    by_cases hm : m = 0
    · subst hm
      ext i
      simp [save_checkpoint]
      omega
    · rw [if_neg hm, if_neg (Nat.succ_ne_zero m)]
      ext i
      simp [save_checkpoint]
      omega

/-- C2: after the checkpoint save for epoch e (e >= 1) completes, exactly
the checkpoint files for epochs e and e-1 exist in the run's checkpoint
directory, every file with index strictly below e-1 is gone, and the save
for epoch 0 prunes nothing (it only adds epoch_0.pkl). -/
theorem checkpoint_retention (p : Params) (obs : ℕ → EpochObs) (e : ℕ)
    (he : 1 ≤ e) :
    (stateAfter p obs (e + 1)).ckpts = {e - 1, e} ∧
    (stateAfter p obs (e + 1)).ckpts ∩ Finset.range (e - 1) = ∅ ∧
    (stateAfter p obs 1).ckpts = insert 0 (stateAfter p obs 0).ckpts := by
  have h1 : (stateAfter p obs (e + 1)).ckpts = {e - 1, e} := by
    rw [ckpts_after p obs e, if_neg (by omega)]
  refine ⟨h1, ?_, ?_⟩
  · rw [h1]
    ext i
    simp
  · rw [ckpts_stateAfter_succ, save_checkpoint_zero]

theorem checkpoint_retention_witness :
    1 ≤ 1 ∧
    ((stateAfter mainParams obsConst (1 + 1)).ckpts = {1 - 1, 1} ∧
     (stateAfter mainParams obsConst (1 + 1)).ckpts ∩ Finset.range (1 - 1) = ∅ ∧
     (stateAfter mainParams obsConst 1).ckpts =
       insert 0 (stateAfter mainParams obsConst 0).ckpts) :=
  ⟨Nat.le_refl 1, checkpoint_retention mainParams obsConst 1 (Nat.le_refl 1)⟩

/-- C4 counterexample: with the directory holding epoch_0.pkl and
epoch_1.pkl, saving epoch 2 must prune epoch_0.pkl; if that os.remove
raises, save_checkpoint raises too (there is no try/except around the
deletion), instead of ignoring the failure and returning the pruned
directory as the claim states. -/
theorem checkpoint_prune_failure_counterexample :
    save_checkpoint_exc {0} {0, 1} 2 = Except.error () := by
  rfl

/-- C4 amended: if deleting an old checkpoint file during the prune step
fails, the exception propagates out of save_checkpoint uncaught (aborting
the run), because the source wraps no handler around os.remove. -/
theorem checkpoint_prune_failure_aborts (failing fs : Finset ℕ) (epoch i : ℕ)
    (hmem : i ∈ fs) (hold : (i : ℤ) < (epoch : ℤ) - 1) (hfail : i ∈ failing) :
    save_checkpoint_exc failing fs epoch = Except.error () := by
  unfold save_checkpoint_exc
  rw [if_pos]
  exact ⟨i, Finset.mem_inter.mpr
    ⟨Finset.mem_filter.mpr ⟨Finset.mem_insert_of_mem hmem, hold⟩, hfail⟩⟩

theorem checkpoint_prune_failure_aborts_witness :
    0 ∈ ({0, 1} : Finset ℕ) ∧ (0 : ℤ) < (2 : ℤ) - 1 ∧ 0 ∈ ({0} : Finset ℕ) ∧
    save_checkpoint_exc {0} {0, 1} 2 = Except.error () :=
  ⟨by decide, by decide, by decide,
   checkpoint_prune_failure_aborts {0} {0, 1} 2 0 (by decide) (by decide) (by decide)⟩

theorem observe_nonimproving (factor : ℚ) (patience : ℕ) (b l : ℚ) (j : ℕ)
    (v : ℚ) (hv : ¬ v < b) :
    observe factor patience ⟨some b, j, l⟩ v =
      if j + 1 > patience then ⟨some b, 0, l * factor⟩ else ⟨some b, j + 1, l⟩ := by
  simp [observe, hv]

theorem feed_nonimproving (factor : ℚ) (patience : ℕ) (b l : ℚ) :
    ∀ (vs : List ℚ) (j : ℕ), (∀ v ∈ vs, b ≤ v) → j + vs.length ≤ patience →
      feed factor patience ⟨some b, j, l⟩ vs = ⟨some b, j + vs.length, l⟩ := by
  intro vs
  induction vs with
  | nil => intro j _ _; simp [feed]
  | cons v t ih =>
    intro j hb hlen
    have hvb : ¬ v < b := not_lt.mpr (hb v (List.mem_cons_self v t))
    have hstep : observe factor patience ⟨some b, j, l⟩ v = ⟨some b, j + 1, l⟩ := by
      rw [observe_nonimproving factor patience b l j v hvb,
        if_neg (by simp at hlen ⊢; omega)]
    have htail : feed factor patience ⟨some b, j, l⟩ (v :: t) =
        feed factor patience ⟨some b, j + 1, l⟩ t := by
      simp [feed, hstep]
    rw [htail, ih (j + 1) (fun w hw => hb w (List.mem_cons_of_mem v hw))
      (by simp at hlen; omega)]
    simp
    omega

/-- C5: the spec-modelled plateau policy reduces the learning rate by
exactly the reduce factor after exactly patience + 1 consecutive
non-improving observations and resets the bad-epoch counter (and does
neither on any shorter non-improving streak); a strictly improving
observation resets the counter to 0 without touching the rate; an
observation exactly equal to the best seen behaves as non-improving. -/
theorem scheduler_plateau_policy (factor : ℚ) (patience : ℕ) (b l : ℚ)
    (vs : List ℚ) (hlen : vs.length = patience + 1) (hbad : ∀ v ∈ vs, b ≤ v)
    (k : ℕ) (hk : k ≤ patience)
    (s : SchedulerState) (c v : ℚ) (hbest : s.bestLoss = some c) (himp : v < c)
    (k2 : ℕ) (l2 : ℚ) :
    feed factor patience ⟨some b, 0, l⟩ vs = ⟨some b, 0, l * factor⟩ ∧
    feed factor patience ⟨some b, 0, l⟩ (vs.take k) = ⟨some b, k, l⟩ ∧
    observe factor patience s v = ⟨some v, 0, s.lr⟩ ∧
    observe factor patience ⟨some b, k2, l2⟩ b =
      (if k2 + 1 > patience then ⟨some b, 0, l2 * factor⟩
       else ⟨some b, k2 + 1, l2⟩) := by
  have hne : vs ≠ [] := by
    intro hnil
    rw [hnil] at hlen
    simp at hlen
  refine ⟨?_, ?_, ?_, ?_⟩
  · have hsplit : vs.dropLast ++ [vs.getLast hne] = vs :=
      List.dropLast_append_getLast hne
    have hdlen : vs.dropLast.length = patience := by
      rw [List.length_dropLast, hlen]
      omega
    have hfront : feed factor patience ⟨some b, 0, l⟩ vs.dropLast =
        ⟨some b, patience, l⟩ := by
      have := feed_nonimproving factor patience b l vs.dropLast 0
        (fun w hw => hbad w (List.dropLast_subset vs hw)) (by rw [hdlen]; omega)
      rw [this, hdlen]
      simp
    have hlast : b ≤ vs.getLast hne := hbad _ (List.getLast_mem hne)
    calc feed factor patience ⟨some b, 0, l⟩ vs
        = feed factor patience ⟨some b, 0, l⟩ (vs.dropLast ++ [vs.getLast hne]) := by
          rw [hsplit]
      _ = observe factor patience ⟨some b, patience, l⟩ (vs.getLast hne) := by
          simp [feed, List.foldl_append, hfront]
          rw [show List.foldl (observe factor patience) ⟨some b, 0, l⟩ vs.dropLast =
            feed factor patience ⟨some b, 0, l⟩ vs.dropLast from rfl, hfront]
      _ = ⟨some b, 0, l * factor⟩ := by
          rw [observe_nonimproving factor patience b l patience _ (not_lt.mpr hlast),
            if_pos (by omega)]
  · have := feed_nonimproving factor patience b l (vs.take k) 0
      (fun w hw => hbad w (List.take_subset k vs hw))
      (by rw [List.length_take, hlen]; omega)
    rw [this, List.length_take, hlen]
    congr 1
    omega
  · obtain ⟨bo, bad, lr⟩ := s
    simp at hbest
    subst hbest
    simp [observe, himp]
  · exact observe_nonimproving factor patience b l2 k2 b (lt_irrefl b)

theorem scheduler_plateau_policy_witness :
    ([(1 : ℚ), 2].length = 1 + 1 ∧ (∀ v ∈ [(1 : ℚ), 2], (1 : ℚ) ≤ v) ∧
     (1 : ℕ) ≤ 1 ∧
     (SchedulerState.mk (some 4) 2 7).bestLoss = some 4 ∧ (3 : ℚ) < 4) ∧
    (feed (1/2) 1 ⟨some 1, 0, 8⟩ [1, 2] = ⟨some 1, 0, 8 * (1/2)⟩ ∧
     feed (1/2) 1 ⟨some 1, 0, 8⟩ ([(1 : ℚ), 2].take 1) = ⟨some 1, 1, 8⟩ ∧
     observe (1/2) 1 ⟨some 4, 2, 7⟩ 3 = ⟨some 3, 0, (SchedulerState.mk (some 4) 2 7).lr⟩ ∧
     observe (1/2) 1 ⟨some 1, 0, 9⟩ 1 =
       (if 0 + 1 > 1 then ⟨some 1, 0, 9 * (1/2)⟩ else ⟨some 1, 0 + 1, 9⟩)) :=
  ⟨⟨by decide, by decide, by decide, by decide, by decide⟩,
   scheduler_plateau_policy (1/2) 1 1 8 [1, 2] (by decide) (by decide)
     1 (by decide) ⟨some 4, 2, 7⟩ 4 3 (by decide) (by decide) 0 9⟩

theorem observe_lr_le (factor : ℚ) (patience : ℕ) (s : SchedulerState) (v : ℚ)
    (h0 : 0 ≤ s.lr) (hf1 : factor ≤ 1) : (observe factor patience s v).lr ≤ s.lr := by
  obtain ⟨bo, bad, lr⟩ := s
  simp only at h0
  cases bo with
  | none => simp [observe]
  | some b =>
    simp only [observe]
    split_ifs
    · simp
    · simpa using mul_le_of_le_one_right h0 hf1
    · simp

theorem observe_lr_nonneg (factor : ℚ) (patience : ℕ) (s : SchedulerState) (v : ℚ)
    (h0 : 0 ≤ s.lr) (hf0 : 0 ≤ factor) : 0 ≤ (observe factor patience s v).lr := by
  obtain ⟨bo, bad, lr⟩ := s
  simp only at h0
  cases bo with
  | none => simpa [observe] using h0
  | some b =>
    simp only [observe]
    split_ifs
    · simpa using h0
    · simpa using mul_nonneg h0 hf0
    · simpa using h0

theorem sched_stateAfter_succ (p : Params) (obs : ℕ → EpochObs) (n : ℕ) :
    (stateAfter p obs (n + 1)).sched =
      observe p.lrReduceFactor p.lrSchedulePatience
        (stateAfter p obs n).sched (obs n).valLoss :=
  rfl

theorem lr_stateAfter_nonneg (p : Params) (obs : ℕ → EpochObs)
    (h0 : 0 ≤ p.initLr) (hf0 : 0 ≤ p.lrReduceFactor) :
    ∀ n : ℕ, 0 ≤ (stateAfter p obs n).sched.lr := by
  intro n
  induction n with
  | zero => exact h0
  | succ m ih =>
    rw [sched_stateAfter_succ]
    exact observe_lr_nonneg _ _ _ _ ih hf0

/-- C6: with a reduce factor at most 1 (and the nonnegative learning rate
and factor of any actual configuration), the learning rate observed at
consecutive epochs never increases: the scheduler either keeps the rate or
multiplies it by the factor. -/
theorem lr_monotone_nonincreasing (p : Params) (obs : ℕ → EpochObs)
    (h0 : 0 ≤ p.initLr) (hf0 : 0 ≤ p.lrReduceFactor) (hf1 : p.lrReduceFactor ≤ 1)
    (e : ℕ) :
    lrAt p obs (e + 1) ≤ lrAt p obs e := by
  unfold lrAt
  rw [show e + 1 + 1 = (e + 1) + 1 from rfl, sched_stateAfter_succ]
  exact observe_lr_le _ _ _ _ (lr_stateAfter_nonneg p obs h0 hf0 (e + 1)) hf1

theorem lr_monotone_nonincreasing_witness :
    ((0 : ℚ) ≤ mainParams.initLr ∧ (0 : ℚ) ≤ mainParams.lrReduceFactor ∧
     mainParams.lrReduceFactor ≤ 1) ∧
    lrAt mainParams obsConst (0 + 1) ≤ lrAt mainParams obsConst 0 :=
  ⟨⟨by with_unfolding_all decide, by with_unfolding_all decide,
    by with_unfolding_all decide⟩,
   lr_monotone_nonincreasing mainParams obsConst (by with_unfolding_all decide)
     (by with_unfolding_all decide) (by with_unfolding_all decide) 0⟩

theorem epochStep_stateAfter (p : Params) (obs : ℕ → EpochObs) (e : ℕ) :
    epochStep p (stateAfter p obs e) e (obs e) = stateAfter p obs (e + 1) :=
  rfl

theorem initState_eq_stateAfter (p : Params) (obs : ℕ → EpochObs) :
    initState p = stateAfter p obs 0 :=
  rfl

theorem loopAux_from_stateAfter (p : Params) (obs : ℕ → EpochObs) :
    ∀ rem e : ℕ,
      (loopAux p obs rem e (stateAfter p obs e)).final =
        stateAfter p obs ((loopAux p obs rem e (stateAfter p obs e)).epochsRun) ∧
      e ≤ (loopAux p obs rem e (stateAfter p obs e)).epochsRun := by
  intro rem
  induction rem with
  | zero => intro e; exact ⟨rfl, Nat.le_refl e⟩
  | succ m ih =>
    intro e
    rw [show loopAux p obs (m + 1) e (stateAfter p obs e) =
        (match stopCheck p (stateAfter p obs (e + 1)) with
         | some r => ⟨stateAfter p obs (e + 1), e + 1, r⟩
         | none => loopAux p obs m (e + 1) (stateAfter p obs (e + 1))) from by
      rw [loopAux, epochStep_stateAfter]]
    cases stopCheck p (stateAfter p obs (e + 1)) with
    | some r => exact ⟨rfl, Nat.le_succ e⟩
    | none => exact ⟨(ih (e + 1)).1, Nat.le_of_succ_le (ih (e + 1)).2⟩

theorem loopAux_stops (p : Params) (obs : ℕ → EpochObs) (r : StopReason) :
    ∀ rem e n : ℕ, e < n → n ≤ e + rem →
      (∀ k, e < k → k < n → stopCheck p (stateAfter p obs k) = none) →
      stopCheck p (stateAfter p obs n) = some r →
      loopAux p obs rem e (stateAfter p obs e) = ⟨stateAfter p obs n, n, r⟩ := by
  intro rem
  induction rem with
  | zero => intro e n h1 h2 _ _; omega
  | succ m ih =>
    intro e n h1 h2 hnone hstop
    rw [show loopAux p obs (m + 1) e (stateAfter p obs e) =
        (match stopCheck p (stateAfter p obs (e + 1)) with
         | some r => ⟨stateAfter p obs (e + 1), e + 1, r⟩
         | none => loopAux p obs m (e + 1) (stateAfter p obs (e + 1))) from by
      rw [loopAux, epochStep_stateAfter]]
    rcases Nat.lt_or_ge (e + 1) n with hlt | hge
    · rw [hnone (e + 1) (Nat.lt_succ_self e) hlt]
      exact ih (e + 1) n hlt (by omega)
        (fun k hk1 hk2 => hnone k (Nat.lt_of_succ_lt hk1) hk2) hstop
    · have hn : n = e + 1 := by omega
      subst hn
      rw [hstop]

/-- C1: at any epoch the loop reaches where both stopping conditions hold
(the learning rate is below min_lr and the elapsed wall clock exceeds
max_time hours), the loop exits reporting the converged stop (the
learning-rate floor at line 123), not the timeout stop, because the floor
check precedes the wall-clock check. -/
theorem stop_priority_converged (p : Params) (obs : ℕ → EpochObs) (n : ℕ)
    (hn : 0 < n) (hle : n ≤ p.epochs)
    (hreach : ∀ k, 0 < k → k < n → stopCheck p (stateAfter p obs k) = none)
    (hlr : (stateAfter p obs n).sched.lr < p.minLr)
    (htime : (stateAfter p obs n).elapsed > p.maxTime * 3600) :
    (train_val_pipeline p obs).reason = StopReason.converged ∧
    (train_val_pipeline p obs).reason ≠ StopReason.timeout ∧
    (train_val_pipeline p obs).epochsRun = n := by
  have hstop : stopCheck p (stateAfter p obs n) = some StopReason.converged := by
    rw [stopCheck, if_pos hlr]
  have hrun : train_val_pipeline p obs = ⟨stateAfter p obs n, n, StopReason.converged⟩ := by
    rw [train_val_pipeline, initState_eq_stateAfter p obs]
    exact loopAux_stops p obs StopReason.converged p.epochs 0 n hn (by omega) hreach hstop
  rw [hrun]
  exact ⟨rfl, by simp, rfl⟩

theorem stop_priority_converged_witness :
    (0 < 1 ∧ 1 ≤ pBoth.epochs ∧
     (stateAfter pBoth obsDur 1).sched.lr < pBoth.minLr ∧
     (stateAfter pBoth obsDur 1).elapsed > pBoth.maxTime * 3600) ∧
    ((train_val_pipeline pBoth obsDur).reason = StopReason.converged ∧
     (train_val_pipeline pBoth obsDur).reason ≠ StopReason.timeout ∧
     (train_val_pipeline pBoth obsDur).epochsRun = 1) :=
  ⟨⟨by decide, by decide, by with_unfolding_all decide, by with_unfolding_all decide⟩,
   stop_priority_converged pBoth obsDur 1 (by decide) (by decide)
     (by intro k hk1 hk2; omega) (by with_unfolding_all decide)
     (by with_unfolding_all decide)⟩

/-- C7: with a zero wall-clock budget (max_time = 0), at least one
configured epoch, a first epoch of positive duration, and a learning rate
still at or above the floor after that epoch, the loop performs exactly
one epoch and stops with the timeout reason. -/
theorem timeout_zero_budget (p : Params) (obs : ℕ → EpochObs)
    (hmax : p.maxTime = 0) (hep : 1 ≤ p.epochs) (hdur : 0 < (obs 0).duration)
    (hlr : ¬ (stateAfter p obs 1).sched.lr < p.minLr) :
    (train_val_pipeline p obs).epochsRun = 1 ∧
    (train_val_pipeline p obs).reason = StopReason.timeout := by
  have helapsed : (stateAfter p obs 1).elapsed = 0 + (obs 0).duration := rfl
  have hstop : stopCheck p (stateAfter p obs 1) = some StopReason.timeout := by
    rw [stopCheck, if_neg hlr, if_pos]
    rw [helapsed, hmax]
    simpa using hdur
  have hrun : train_val_pipeline p obs = ⟨stateAfter p obs 1, 1, StopReason.timeout⟩ := by
    rw [train_val_pipeline, initState_eq_stateAfter p obs]
    exact loopAux_stops p obs StopReason.timeout p.epochs 0 1 (by omega) (by omega)
      (by intro k hk1 hk2; omega) hstop
  rw [hrun]
  exact ⟨rfl, rfl⟩

theorem timeout_zero_budget_witness :
    (pTimeout.maxTime = 0 ∧ 1 ≤ pTimeout.epochs ∧ 0 < (obsDur 0).duration ∧
     ¬ (stateAfter pTimeout obsDur 1).sched.lr < pTimeout.minLr) ∧
    ((train_val_pipeline pTimeout obsDur).epochsRun = 1 ∧
     (train_val_pipeline pTimeout obsDur).reason = StopReason.timeout) :=
  ⟨⟨rfl, by decide, by with_unfolding_all decide, by with_unfolding_all decide⟩,
   timeout_zero_budget pTimeout obsDur rfl (by decide)
     (by with_unfolding_all decide) (by with_unfolding_all decide)⟩

/-- C10: the checkpoint save (line 104) happens before the stop checks
(lines 123-128), so however the loop exits, a checkpoint file for the last
completed epoch is present in the final checkpoint directory. -/
theorem checkpoint_exists_at_exit (p : Params) (obs : ℕ → EpochObs)
    (h : 1 ≤ (train_val_pipeline p obs).epochsRun) :
    (train_val_pipeline p obs).epochsRun - 1 ∈
      (train_val_pipeline p obs).final.ckpts := by
  have hfin : (train_val_pipeline p obs).final =
      stateAfter p obs ((train_val_pipeline p obs).epochsRun) := by
    rw [train_val_pipeline, initState_eq_stateAfter p obs]
    exact (loopAux_from_stateAfter p obs p.epochs 0).1
  rw [hfin]
  obtain ⟨m, hm⟩ : ∃ m, (train_val_pipeline p obs).epochsRun = m + 1 :=
    ⟨(train_val_pipeline p obs).epochsRun - 1, by omega⟩
  rw [hm]
  rw [ckpts_after p obs m]
  by_cases hm0 : m = 0
  · subst hm0; simp
  · rw [if_neg hm0]
    simp

theorem checkpoint_exists_at_exit_witness :
    1 ≤ (train_val_pipeline pBoth obsDur).epochsRun ∧
    (train_val_pipeline pBoth obsDur).epochsRun - 1 ∈
      (train_val_pipeline pBoth obsDur).final.ckpts :=
  ⟨by with_unfolding_all decide,
   checkpoint_exists_at_exit pBoth obsDur (by with_unfolding_all decide)⟩

theorem epochStep_test_irrelevant (p : Params) (st : LoopState) (e : ℕ)
    (o₁ o₂ : EpochObs) (hTL : o₁.trainLoss = o₂.trainLoss)
    (hTA : o₁.trainAcc = o₂.trainAcc) (hVL : o₁.valLoss = o₂.valLoss)
    (hVA : o₁.valAcc = o₂.valAcc) (hD : o₁.duration = o₂.duration) :
    epochStep p st e o₁ = epochStep p st e o₂ := by
  unfold epochStep logBlock
  rw [hTL, hTA, hVL, hVA, hD]

/-- C9: two runs whose external observations agree on everything except
the test loss and test accuracy produce identical run results: same
scheduler trajectory and learning rates, same checkpoint directory, same
recorded scalars, same stop epoch and same stop reason.  The test metrics
are computed every epoch (line 101) but feed nothing except the console
print. -/
theorem test_metrics_no_influence (p : Params) (obs₁ obs₂ : ℕ → EpochObs)
    (h : ∀ e, (obs₁ e).trainLoss = (obs₂ e).trainLoss ∧
              (obs₁ e).trainAcc = (obs₂ e).trainAcc ∧
              (obs₁ e).valLoss = (obs₂ e).valLoss ∧
              (obs₁ e).valAcc = (obs₂ e).valAcc ∧
              (obs₁ e).duration = (obs₂ e).duration) :
    train_val_pipeline p obs₁ = train_val_pipeline p obs₂ := by
  have haux : ∀ rem e st, loopAux p obs₁ rem e st = loopAux p obs₂ rem e st := by
    intro rem
    induction rem with
    | zero => intro e st; rfl
    | succ m ih =>
      intro e st
      have hstep : epochStep p st e (obs₁ e) = epochStep p st e (obs₂ e) :=
        epochStep_test_irrelevant p st e (obs₁ e) (obs₂ e)
          (h e).1 (h e).2.1 (h e).2.2.1 (h e).2.2.2.1 (h e).2.2.2.2
      rw [loopAux, loopAux, hstep]
      cases stopCheck p (epochStep p st e (obs₂ e)) with
      | some r => rfl
      | none => exact ih (e + 1) (epochStep p st e (obs₂ e))
  rw [train_val_pipeline, train_val_pipeline, haux]

theorem test_metrics_no_influence_witness :
    (obsConst 0).testLoss ≠ (obsTestDiff 0).testLoss ∧
    (obsConst 0).testAcc ≠ (obsTestDiff 0).testAcc ∧
    train_val_pipeline pBoth obsConst = train_val_pipeline pBoth obsTestDiff :=
  ⟨by with_unfolding_all decide, by with_unfolding_all decide,
   test_metrics_no_influence pBoth obsConst obsTestDiff
     (fun _ => ⟨rfl, rfl, rfl, rfl, rfl⟩)⟩

theorem log_stateAfter_succ (p : Params) (obs : ℕ → EpochObs) (n : ℕ) :
    (stateAfter p obs (n + 1)).log =
      (stateAfter p obs n).log ++
        logBlock (obs n) n ((stateAfter p obs (n + 1)).sched.lr) :=
  rfl

theorem log_epoch_lt (p : Params) (obs : ℕ → EpochObs) :
    ∀ n : ℕ, ∀ s ∈ (stateAfter p obs n).log, s.epoch < n := by
  intro n
  induction n with
  | zero => intro s hs; simp [stateAfter, initState] at hs
  | succ m ih =>
    intro s hs
    rw [log_stateAfter_succ, List.mem_append] at hs
    rcases hs with hs | hs
    · exact Nat.lt_succ_of_lt (ih s hs)
    · have : s.epoch = m := by
        simp [logBlock] at hs
        rcases hs with h | h | h | h | h <;> rw [h]
      omega

theorem log_filter_stateAfter (p : Params) (obs : ℕ → EpochObs) (e : ℕ) :
    ∀ n : ℕ, e < n →
      (stateAfter p obs n).log.filter (fun s => s.epoch == e) =
        logBlock (obs e) e ((stateAfter p obs (e + 1)).sched.lr) := by
  intro n
  induction n with
  | zero => intro h; omega
  | succ m ih =>
    intro h
    rw [log_stateAfter_succ, List.filter_append]
    rcases Nat.lt_or_ge e m with hlt | hge
    · rw [ih hlt]
      have hme : (m == e) = false := by
        simp
        omega
      have : (logBlock (obs m) m ((stateAfter p obs (m + 1)).sched.lr)).filter
          (fun s => s.epoch == e) = [] := by
        simp [logBlock, hme]
      rw [this, List.append_nil]
    · have hem : e = m := by omega
      subst hem
      have hold : (stateAfter p obs e).log.filter (fun s => s.epoch == e) = [] := by
        rw [List.filter_eq_nil_iff]
        intro s hs
        have := log_epoch_lt p obs e s hs
        simp
        omega
      rw [hold, List.nil_append]
      simp [logBlock]

/-- C3 counterexample: in a completed one-epoch run, the SummaryWriter
receives exactly the five scalars of lines 111-115 (train loss, val loss,
train acc, val acc, learning rate); no test-loss or test-accuracy scalar is
ever recorded, so the claimed six-scalars-plus-rate record does not
happen. -/
theorem metric_record_counterexample :
    (train_val_pipeline pBoth obsDur).final.log.map Scalar.name =
      ["train/_loss", "val/_loss", "train/_acc", "val/_acc", "learning_rate"] ∧
    "test/_loss" ∉ (train_val_pipeline pBoth obsDur).final.log.map Scalar.name ∧
    "test/_acc" ∉ (train_val_pipeline pBoth obsDur).final.log.map Scalar.name := by
  with_unfolding_all decide

/-- C3 amended: for every completed epoch the Metric Recorder receives
exactly one block of records keyed by that epoch index, carrying the four
loss/accuracy scalars (train loss, validation loss, train accuracy,
validation accuracy) plus the current learning rate; the test loss and
test accuracy are not recorded. -/
theorem metric_record_per_epoch (p : Params) (obs : ℕ → EpochObs) (e : ℕ)
    (h : e < (train_val_pipeline p obs).epochsRun) :
    (train_val_pipeline p obs).final.log.filter (fun s => s.epoch == e) =
      logBlock (obs e) e ((stateAfter p obs (e + 1)).sched.lr) := by
  have hfin : (train_val_pipeline p obs).final =
      stateAfter p obs ((train_val_pipeline p obs).epochsRun) := by
    rw [train_val_pipeline, initState_eq_stateAfter p obs]
    exact (loopAux_from_stateAfter p obs p.epochs 0).1
  rw [hfin]
  exact log_filter_stateAfter p obs e ((train_val_pipeline p obs).epochsRun) h

theorem metric_record_per_epoch_witness :
    0 < (train_val_pipeline pBoth obsDur).epochsRun ∧
    (train_val_pipeline pBoth obsDur).final.log.filter (fun s => s.epoch == 0) =
      logBlock (obsDur 0) 0 ((stateAfter pBoth obsDur (0 + 1)).sched.lr) :=
  ⟨by with_unfolding_all decide,
   metric_record_per_epoch pBoth obsDur 0 (by with_unfolding_all decide)⟩

theorem sched_no_improvement (p : Params) (obs : ℕ → EpochObs)
    (hno : ∀ e, 1 ≤ e → (obs 0).valLoss ≤ (obs e).valLoss) :
    ∀ e, 1 ≤ e → (stateAfter p obs e).sched =
      ⟨some (obs 0).valLoss,
       (autoIter p.lrReduceFactor p.lrSchedulePatience (0, p.initLr) (e - 1)).1,
       (autoIter p.lrReduceFactor p.lrSchedulePatience (0, p.initLr) (e - 1)).2⟩ := by
  intro e
  induction e with
  | zero => intro h; omega
  | succ m ih =>
    intro _
    rcases Nat.eq_zero_or_pos m with h0 | hpos
    · subst h0
      rfl
    · obtain ⟨k, rfl⟩ : ∃ k, m = k + 1 := ⟨m - 1, by omega⟩
      rw [sched_stateAfter_succ, ih (by omega)]
      rw [observe_nonimproving _ _ _ _ _ _ (not_lt.mpr (hno (k + 1) (by omega)))]
      simp only [Nat.add_sub_cancel]
      rw [show autoIter p.lrReduceFactor p.lrSchedulePatience (0, p.initLr) (k + 1) =
          autoStep p.lrReduceFactor p.lrSchedulePatience
            (autoIter p.lrReduceFactor p.lrSchedulePatience (0, p.initLr) k) from rfl]
      unfold autoStep
      split_ifs with hcase
      · rfl
      · rfl

theorem autoIter_main_floor :
    (∀ k, k < 42 →
      ¬ (autoIter mainParams.lrReduceFactor mainParams.lrSchedulePatience
          (0, mainParams.initLr) k).2 < mainParams.minLr) ∧
    (autoIter mainParams.lrReduceFactor mainParams.lrSchedulePatience
        (0, mainParams.initLr) 42).2 < mainParams.minLr := by
  with_unfolding_all decide

theorem elapsed_obsConst (k : ℕ) :
    (stateAfter mainParams obsConst k).elapsed = 0 := by
  induction k with
  | zero => rfl
  | succ m ih =>
    have hstep : (stateAfter mainParams obsConst (m + 1)).elapsed =
        (stateAfter mainParams obsConst m).elapsed + (obsConst m).duration := rfl
    rw [hstep, ih]
    show (0 : ℚ) + 0 = 0
    exact add_zero 0

set_option maxRecDepth 100000 in
/-- C8 counterexample: under the main configuration (min_lr 1e-5, init_lr
0.001, factor 0.5, patience 5) and a constant, never-improving validation
loss, the loop is still running well past epoch 8: it completes 43 epochs,
not at most 8, because the first reduction needs patience + 1 = 6
non-improving observations after the initial best update and the floor is
crossed only at the seventh reduction. -/
theorem lr_floor_epoch8_counterexample :
    (train_val_pipeline mainParams obsConst).epochsRun = 43 ∧
    ¬ (train_val_pipeline mainParams obsConst).epochsRun ≤ 8 := by
  with_unfolding_all decide

set_option maxRecDepth 100000 in
/-- C8 amended: with min_lr 1e-5, init_lr 0.001, factor 0.5 and the
patience 5 and budgets of main, a validation-loss signal that never
improves stops the loop via the learning-rate floor after exactly 43
completed epochs: the first observation always improves on the +infinity
initial best, reductions then land on epochs 6, 12, ..., 42, and the
seventh reduction (0.001 * 0.5^7 < 1e-5) trips the floor check at the end
of epoch index 42 - provided the wall-clock budget never fires first. -/
theorem lr_floor_stop_epoch (obs : ℕ → EpochObs)
    (hno : ∀ e, 1 ≤ e → (obs 0).valLoss ≤ (obs e).valLoss)
    (htime : ∀ k, 1 ≤ k → k ≤ 43 →
      (stateAfter mainParams obs k).elapsed ≤ mainParams.maxTime * 3600) :
    (train_val_pipeline mainParams obs).epochsRun = 43 ∧
    (train_val_pipeline mainParams obs).reason = StopReason.converged := by
  have hsched := sched_no_improvement mainParams obs hno
  have hfloor := autoIter_main_floor
  have hnone : ∀ k, 0 < k → k < 43 →
      stopCheck mainParams (stateAfter mainParams obs k) = none := by
    intro k hk1 hk2
    have hA : ¬ (stateAfter mainParams obs k).sched.lr < mainParams.minLr := by
      rw [hsched k (by omega)]
      exact hfloor.1 (k - 1) (by omega)
    have hB : ¬ (stateAfter mainParams obs k).elapsed > mainParams.maxTime * 3600 :=
      not_lt.mpr (htime k (by omega) (by omega))
    rw [stopCheck, if_neg hA, if_neg hB]
  have hstop : stopCheck mainParams (stateAfter mainParams obs 43) =
      some StopReason.converged := by
    have hA : (stateAfter mainParams obs 43).sched.lr < mainParams.minLr := by
      rw [hsched 43 (by omega)]
      rw [show (43 : ℕ) - 1 = 42 from rfl]
      exact hfloor.2
    rw [stopCheck, if_pos hA]
  have hrun : train_val_pipeline mainParams obs =
      ⟨stateAfter mainParams obs 43, 43, StopReason.converged⟩ := by
    rw [train_val_pipeline, initState_eq_stateAfter mainParams obs]
    exact loopAux_stops mainParams obs StopReason.converged mainParams.epochs 0 43
      (by omega) (by decide) hnone hstop
  rw [hrun]
  exact ⟨rfl, rfl⟩

theorem lr_floor_stop_epoch_witness :
    (obsConst 0).valLoss ≤ (obsConst 1).valLoss ∧
    ((train_val_pipeline mainParams obsConst).epochsRun = 43 ∧
     (train_val_pipeline mainParams obsConst).reason = StopReason.converged) :=
  ⟨le_refl _,
   lr_floor_stop_epoch obsConst (fun _ _ => le_refl _)
     (fun k _ _ => by
       rw [elapsed_obsConst k]
       with_unfolding_all decide)⟩

end PyTorchGCN
